import Mathlib

/-!
Shallow embedding of the summation (aggregation) engine of the
`financial-advisor-nest-js` repository.

The repository contains two textually parallel implementations of the
`SummationService` class:

* `SvcA` below embeds `src/application/summation/summation.service.ts`
  (the `Duration` / `SemanticDuration` variant);
* `SvcB` below embeds the `GroupBy` / `Period` variant found alongside
  `src/application/summation/enums/period.enum.ts`.

JavaScript `Date` values are modelled as `Int` milliseconds since the Unix
epoch, with the local time zone taken to be UTC.  Calendar-field accessors
(`getFullYear`, `getMonth`, `getDate`, `getDay`) are implemented with the
standard civil-from-days / days-from-civil conversions, and the normalising
`new Date(year, month, day, ...)` constructor and `setDate` / `setHours`
mutators are modelled by `jsMakeDate` / `setDayOfMonth` / `endOfDayOf`.
Monetary amounts are modelled as `Int`.  Code that can `throw` is modelled
in `Except String`.
-/

/-- Milliseconds in one day. -/
def dayMs : Int := 86400000

/-- Civil date (year, month 1..12, day 1..31) from days since 1970-01-01
(Howard Hinnant's `civil_from_days` algorithm). -/
def civilFromDays (z : Int) : Int × Int × Int :=
  let z' := z + 719468
  let era := z'.fdiv 146097
  let doe := z' - era * 146097
  let yoe := (doe - doe / 1460 + doe / 36524 - doe / 146096) / 365
  let y := yoe + era * 400
  let doy := doe - (365 * yoe + yoe / 4 - yoe / 100)
  let mp := (5 * doy + 2) / 153
  let d := doy - (153 * mp + 2) / 5 + 1
  let m := mp + (if mp < 10 then 3 else -9)
  (y + (if m ≤ 2 then 1 else 0), m, d)

/-- Days since 1970-01-01 from a civil date (Hinnant's `days_from_civil`). -/
def daysFromCivil (y m d : Int) : Int :=
  let y' := y - (if m ≤ 2 then 1 else 0)
  let era := y'.fdiv 400
  let yoe := y' - era * 400
  let mp := m + (if m > 2 then -3 else 9)
  let doy := (153 * mp + 2) / 5 + d - 1
  let doe := yoe * 365 + yoe / 4 - yoe / 100 + doy
  era * 146097 + doe - 719468

/-- Days-since-epoch of the instant `t` (ms): JS `Math.floor(t / 86400000)`. -/
def toDay (t : Int) : Int := t.fdiv dayMs

/-- Midnight (00:00:00.000) of the civil day containing `t`. -/
def dateOnly (t : Int) : Int := toDay t * dayMs

/-- JS `date.getFullYear()` (local = UTC). -/
def getFullYear (t : Int) : Int := (civilFromDays (toDay t)).1

/-- JS `date.getMonth()`: 0-based month. -/
def getMonth (t : Int) : Int := (civilFromDays (toDay t)).2.1 - 1

/-- JS `date.getDate()`: day of month, 1-based. -/
def getDayOfMonth (t : Int) : Int := (civilFromDays (toDay t)).2.2

/-- JS `date.getDay()`: weekday, 0 = Sunday (1970-01-01 was a Thursday). -/
def getWeekday (t : Int) : Int := (toDay t + 4).emod 7

/-- JS `new Date(year, month, day)` at midnight: `month` is 0-based and both
`month` and `day` may lie outside their ranges; JS normalises them, which is
exactly linear month/day arithmetic on the civil calendar. -/
def jsMakeDate (y m0 d : Int) : Int :=
  let ym := y + m0.fdiv 12
  let mm := m0.fmod 12
  (daysFromCivil ym (mm + 1) 1 + (d - 1)) * dayMs

/-- JS `new Date(year, month, day, h, min, s, ms)` (arguments in range). -/
def jsMakeDateTime (y m0 d h mi s ms : Int) : Int :=
  jsMakeDate y m0 d + h * 3600000 + mi * 60000 + s * 1000 + ms

/-- JS `d.setDate(n)`: replace the day of month by `n` (normalising),
keeping the time of day. -/
def setDayOfMonth (t n : Int) : Int :=
  jsMakeDate (getFullYear t) (getMonth t) n + (t - dateOnly t)

/-- JS `d.setHours(23, 59, 59, 999)`: last instant of `t`'s civil day. -/
def endOfDayOf (t : Int) : Int := dateOnly t + 86399999

/-- JS `String(n).padStart(2, '0')`. -/
def pad2 (n : Int) : String :=
  let s := toString n
  if s.length < 2 then "0" ++ s else s

/-- TS `Math.min` over the spread of a nonempty list (the `[]` case is
unreachable in the service: groups are never empty). -/
def minList : List Int → Int
  | [] => 0
  | x :: xs => xs.foldl min x

/-- TS `Math.max` over the spread of a nonempty list. -/
def maxList : List Int → Int
  | [] => 0
  | x :: xs => xs.foldl max x

/-- The result list of an engine call, forgetting the error message:
`some l` when a result list `l` is returned, `none` when the call throws. -/
def okPart {α : Type} : Except String α → Option α
  | .ok a => some a
  | .error _ => none

/-- TS `ISummationRecord` / `ISummationTransaction`: the fields the engine
reads are `amount : number` and `date : Date`. -/
structure SummationRecord where
  amount : Int
  date : Int
deriving DecidableEq, Repr

/-- TS `SummationResultDto`: one group summary. -/
structure SummationResult where
  period : String
  total : Int
  count : Nat
  startDate : Int
  endDate : Int
deriving DecidableEq, Repr

/-- TS `findByDateRange` of the repository implementations: all records with
`startDate <= date <= endDate` (JS `Date` comparison), in store order. -/
def findByDateRange (store : List SummationRecord) (startDate endDate : Int) :
    List SummationRecord :=
  store.filter fun r => decide (startDate ≤ r.date) && decide (r.date ≤ endDate)

namespace SvcA

/-- TS `Duration` enum (`day`/`week`/`month`/`year`); the extra constructor
`invalid` models any other runtime string reaching the service. -/
inductive Duration where
  | day
  | week
  | month
  | year
  | invalid (raw : String)
deriving DecidableEq, Repr

/-- The four values of the TS enum, as opposed to arbitrary strings. -/
def Duration.supported : Duration → Bool
  | .invalid _ => false
  | _ => true

/-- TS `SemanticDuration` enum; `invalid` models any other runtime string. -/
inductive SemanticDuration where
  | today
  | yesterday
  | thisWeek
  | lastWeek
  | thisMonth
  | lastMonth
  | thisYear
  | lastYear
  | invalid (raw : String)
deriving DecidableEq, Repr

/-- TS `SummationQueryDto` of the `Duration`/`SemanticDuration` variant. -/
structure Query where
  duration : Option Duration := none
  semanticDuration : Option SemanticDuration := none
  startDate : Option Int := none
  endDate : Option Int := none

/-- TS `getWeekNumber(date)`: shift to the Thursday of the date's week and
count weeks from Jan 1 of that Thursday's year (`Math.ceil` of the
day-count over 7; the count is always ≥ 1, so ceiling is `(n + 6).fdiv 7`). -/
def getWeekNumber (t : Int) : Int :=
  let d := daysFromCivil (getFullYear t) (getMonth t + 1) (getDayOfMonth t)
  let wd := (d + 4).emod 7
  let dayNum := if wd = 0 then 7 else wd
  let d2 := d + 4 - dayNum
  let yearStart := daysFromCivil (civilFromDays d2).1 1 1
  (d2 - yearStart + 1 + 6).fdiv 7

/-- TS `getPeriodKey(date, duration)`. -/
def getPeriodKey (t : Int) (duration : Duration) : Except String String :=
  let year := getFullYear t
  let month := pad2 (getMonth t + 1)
  let day := pad2 (getDayOfMonth t)
  match duration with
  | .day => .ok (toString year ++ "-" ++ month ++ "-" ++ day)
  | .week => .ok (toString year ++ "-W" ++ pad2 (getWeekNumber t))
  | .month => .ok (toString year ++ "-" ++ month)
  | .year => .ok (toString year)
  | .invalid _ => .error "Unsupported duration"

/-- One step of the `records.forEach` loop in `groupAndSum`: push `r` onto
the bucket of `key` in the insertion-ordered map, creating it if absent. -/
def addRecord (groups : List (String × List SummationRecord)) (key : String)
    (r : SummationRecord) : List (String × List SummationRecord) :=
  match groups with
  | [] => [(key, [r])]
  | (k, rs) :: rest =>
    if k = key then (k, rs ++ [r]) :: rest
    else (k, rs) :: addRecord rest key r

/-- The `records.forEach` loop of `groupAndSum`: build the insertion-ordered
grouping map; a thrown `getPeriodKey` error propagates. -/
def buildGroups (records : List SummationRecord) (duration : Duration) :
    Except String (List (String × List SummationRecord)) :=
  records.foldlM
    (fun acc r => (getPeriodKey r.date duration).map fun key => addRecord acc key r)
    []

/-- The `Array.from(grouped.entries()).map(...)` step of `groupAndSum`. -/
def summarize (groups : List (String × List SummationRecord)) :
    List SummationResult :=
  groups.map fun p =>
    { period := p.1
      total := (p.2.map SummationRecord.amount).sum
      count := p.2.length
      startDate := minList (p.2.map SummationRecord.date)
      endDate := maxList (p.2.map SummationRecord.date) }

/-- TS `groupAndSum(records, duration)`. -/
def groupAndSum (records : List SummationRecord) (duration : Duration) :
    Except String (List SummationResult) :=
  (buildGroups records duration).map summarize

/-- TS `getSemanticDateRange(semantic)`; `now` is the ambient `new Date()`. -/
def getSemanticDateRange (semantic : SemanticDuration) (now : Int) :
    Except String (Int × Int) :=
  let today := jsMakeDate (getFullYear now) (getMonth now) (getDayOfMonth now)
  let endDate :=
    jsMakeDateTime (getFullYear today) (getMonth today) (getDayOfMonth today)
      23 59 59 999
  match semantic with
  | .today => .ok (today, endDate)
  | .yesterday =>
    let yesterday := setDayOfMonth today (getDayOfMonth today - 1)
    .ok (yesterday, endOfDayOf yesterday)
  | .thisWeek =>
    let dayOfWeek := getWeekday today
    let startOfWeek :=
      setDayOfMonth today
        (getDayOfMonth today - dayOfWeek + (if dayOfWeek = 0 then -6 else 1))
    .ok (startOfWeek, endDate)
  | .lastWeek =>
    let dayOfWeek := getWeekday today
    let startOfLastWeek := setDayOfMonth today (getDayOfMonth today - dayOfWeek - 6)
    let endOfLastWeek :=
      endOfDayOf (setDayOfMonth startOfLastWeek (getDayOfMonth startOfLastWeek + 6))
    .ok (startOfLastWeek, endOfLastWeek)
  | .thisMonth =>
    .ok (jsMakeDate (getFullYear today) (getMonth today) 1, endDate)
  | .lastMonth =>
    let startOfLastMonth := jsMakeDate (getFullYear today) (getMonth today - 1) 1
    let endOfLastMonth := jsMakeDate (getFullYear today) (getMonth today) 0
    .ok (startOfLastMonth, endOfDayOf endOfLastMonth)
  | .thisYear =>
    .ok (jsMakeDate (getFullYear today) 0 1, endDate)
  | .lastYear =>
    let startOfLastYear := jsMakeDate (getFullYear today - 1) 0 1
    let endOfLastYear := jsMakeDate (getFullYear today - 1) 11 31
    .ok (startOfLastYear, endOfDayOf endOfLastYear)
  | .invalid _ => .error "Unsupported semantic duration"

/-- TS `getDateRange(query)`: semantic range when present, else the explicit
dates with defaults `new Date(0)` / `new Date()` (the ambient now). -/
def getDateRange (query : Query) (now : Int) : Except String (Int × Int) :=
  match query.semanticDuration with
  | some s => getSemanticDateRange s now
  | none => .ok (query.startDate.getD 0, query.endDate.getD now)

/-- TS `calculateSumByDuration(query)` against a store whose `findByDateRange`
is the in-memory/mock filter; `now` is the ambient clock. -/
def calculateSumByDuration (store : List SummationRecord) (query : Query)
    (now : Int) : Except String (List SummationResult) := do
  let dateRange ← getDateRange query now
  let records := findByDateRange store dateRange.1 dateRange.2
  groupAndSum records (query.duration.getD .month)

/-- TS `getIncomeSumByDuration(query)`: keeps records with `amount > 0`. -/
def getIncomeSumByDuration (store : List SummationRecord) (query : Query)
    (now : Int) : Except String (List SummationResult) := do
  let dateRange ← getDateRange query now
  let records := findByDateRange store dateRange.1 dateRange.2
  let incomeRecords := records.filter fun r => decide (r.amount > 0)
  groupAndSum incomeRecords (query.duration.getD .month)

/-- TS `getExpensesSumByDuration(query)`: keeps records with `amount < 0`. -/
def getExpensesSumByDuration (store : List SummationRecord) (query : Query)
    (now : Int) : Except String (List SummationResult) := do
  let dateRange ← getDateRange query now
  let records := findByDateRange store dateRange.1 dateRange.2
  let expenseRecords := records.filter fun r => decide (r.amount < 0)
  groupAndSum expenseRecords (query.duration.getD .month)

/-- The period key that `getPeriodKey` returns for a supported duration
(the `""` fallback is never hit for supported durations). -/
def keyOf (duration : Duration) (t : Int) : String :=
  match getPeriodKey t duration with
  | .ok s => s
  | .error _ => ""

/-- One `forEach` step, with the key already computed. -/
def stepOf (duration : Duration) (acc : List (String × List SummationRecord))
    (r : SummationRecord) : List (String × List SummationRecord) :=
  addRecord acc (keyOf duration r.date) r

/-- The pure (never-throwing) grouping fold, used to reason about
`buildGroups` on supported durations. -/
def buildGroupsP (records : List SummationRecord) (duration : Duration) :
    List (String × List SummationRecord) :=
  records.foldl (stepOf duration) []

/-- Sum of all recorded amounts over all buckets. -/
def groupsTotal (groups : List (String × List SummationRecord)) : Int :=
  (groups.map fun p => (p.2.map SummationRecord.amount).sum).sum

/-- Number of records over all buckets. -/
def groupsCount (groups : List (String × List SummationRecord)) : Nat :=
  (groups.map fun p => p.2.length).sum

/-- Keys of the grouping map, in insertion order. -/
def keysOf (groups : List (String × List SummationRecord)) : List String :=
  groups.map Prod.fst

/-- Loop invariant of the `forEach` grouping pass: keys are distinct, each
bucket holds exactly the already-processed records bearing its key (in
order), every processed record's key owns a bucket, and buckets are
nonempty. -/
def GroupInv (d : Duration) (processed : List SummationRecord)
    (acc : List (String × List SummationRecord)) : Prop :=
  (keysOf acc).Nodup ∧
  (∀ p ∈ acc, p.2 = processed.filter fun q => keyOf d q.date == p.1) ∧
  (∀ q ∈ processed, keyOf d q.date ∈ keysOf acc) ∧
  (∀ p ∈ acc, p.2 ≠ [])
end SvcA

namespace SvcB

/-- TS `GroupBy` enum; `invalid` models any other runtime string. -/
inductive GroupBy where
  | day
  | week
  | month
  | year
  | invalid (raw : String)
deriving DecidableEq, Repr

/-- The four values of the TS enum, as opposed to arbitrary strings. -/
def GroupBy.supported : GroupBy → Bool
  | .invalid _ => false
  | _ => true

/-- TS `Period` enum; `invalid` models any other runtime string. -/
inductive Period where
  | today
  | yesterday
  | thisWeek
  | lastWeek
  | thisMonth
  | lastMonth
  | thisYear
  | lastYear
  | invalid (raw : String)
deriving DecidableEq, Repr

/-- TS `SummationQueryDto` of the `GroupBy`/`Period` variant. -/
structure Query where
  groupBy : Option GroupBy := none
  period : Option Period := none
  startDate : Option Int := none
  endDate : Option Int := none

/-- TS `getWeekNumber(date)` of the `GroupBy`/`Period` variant. -/
def getWeekNumber (t : Int) : Int :=
  let d := daysFromCivil (getFullYear t) (getMonth t + 1) (getDayOfMonth t)
  let wd := (d + 4).emod 7
  let dayNum := if wd = 0 then 7 else wd
  let d2 := d + 4 - dayNum
  let yearStart := daysFromCivil (civilFromDays d2).1 1 1
  (d2 - yearStart + 1 + 6).fdiv 7

/-- TS `getPeriodKey(date, groupBy)`. -/
def getPeriodKey (t : Int) (groupBy : GroupBy) : Except String String :=
  let year := getFullYear t
  let month := pad2 (getMonth t + 1)
  let day := pad2 (getDayOfMonth t)
  match groupBy with
  | .day => .ok (toString year ++ "-" ++ month ++ "-" ++ day)
  | .week => .ok (toString year ++ "-W" ++ pad2 (getWeekNumber t))
  | .month => .ok (toString year ++ "-" ++ month)
  | .year => .ok (toString year)
  | .invalid _ => .error "Unsupported groupBy value"

/-- One step of the `records.forEach` loop in this variant's `groupAndSum`. -/
def addRecord (groups : List (String × List SummationRecord)) (key : String)
    (r : SummationRecord) : List (String × List SummationRecord) :=
  match groups with
  | [] => [(key, [r])]
  | (k, rs) :: rest =>
    if k = key then (k, rs ++ [r]) :: rest
    else (k, rs) :: addRecord rest key r

/-- The `records.forEach` loop of this variant's `groupAndSum`. -/
def buildGroups (records : List SummationRecord) (groupBy : GroupBy) :
    Except String (List (String × List SummationRecord)) :=
  records.foldlM
    (fun acc r => (getPeriodKey r.date groupBy).map fun key => addRecord acc key r)
    []

/-- The summary-assembly step of this variant's `groupAndSum`. -/
def summarize (groups : List (String × List SummationRecord)) :
    List SummationResult :=
  groups.map fun p =>
    { period := p.1
      total := (p.2.map SummationRecord.amount).sum
      count := p.2.length
      startDate := minList (p.2.map SummationRecord.date)
      endDate := maxList (p.2.map SummationRecord.date) }

/-- TS `groupAndSum(records, groupBy)` of the `GroupBy`/`Period` variant. -/
def groupAndSum (records : List SummationRecord) (groupBy : GroupBy) :
    Except String (List SummationResult) :=
  (buildGroups records groupBy).map summarize

/-- TS `getPeriodDateRange(period)`; `now` is the ambient `new Date()`. -/
def getPeriodDateRange (period : Period) (now : Int) :
    Except String (Int × Int) :=
  let today := jsMakeDate (getFullYear now) (getMonth now) (getDayOfMonth now)
  let endDate :=
    jsMakeDateTime (getFullYear today) (getMonth today) (getDayOfMonth today)
      23 59 59 999
  match period with
  | .today => .ok (today, endDate)
  | .yesterday =>
    let yesterday := setDayOfMonth today (getDayOfMonth today - 1)
    .ok (yesterday, endOfDayOf yesterday)
  | .thisWeek =>
    let dayOfWeek := getWeekday today
    let startOfWeek :=
      setDayOfMonth today
        (getDayOfMonth today - dayOfWeek + (if dayOfWeek = 0 then -6 else 1))
    .ok (startOfWeek, endDate)
  | .lastWeek =>
    let dayOfWeek := getWeekday today
    let startOfLastWeek := setDayOfMonth today (getDayOfMonth today - dayOfWeek - 6)
    let endOfLastWeek :=
      endOfDayOf (setDayOfMonth startOfLastWeek (getDayOfMonth startOfLastWeek + 6))
    .ok (startOfLastWeek, endOfLastWeek)
  | .thisMonth =>
    .ok (jsMakeDate (getFullYear today) (getMonth today) 1, endDate)
  | .lastMonth =>
    let startOfLastMonth := jsMakeDate (getFullYear today) (getMonth today - 1) 1
    let endOfLastMonth := jsMakeDate (getFullYear today) (getMonth today) 0
    .ok (startOfLastMonth, endOfDayOf endOfLastMonth)
  | .thisYear =>
    .ok (jsMakeDate (getFullYear today) 0 1, endDate)
  | .lastYear =>
    let startOfLastYear := jsMakeDate (getFullYear today - 1) 0 1
    let endOfLastYear := jsMakeDate (getFullYear today - 1) 11 31
    .ok (startOfLastYear, endOfDayOf endOfLastYear)
  | .invalid _ => .error "Unsupported period value"

/-- TS `getDateRange(query)` of the `GroupBy`/`Period` variant. -/
def getDateRange (query : Query) (now : Int) : Except String (Int × Int) :=
  match query.period with
  | some p => getPeriodDateRange p now
  | none => .ok (query.startDate.getD 0, query.endDate.getD now)

/-- TS `calculateSumByDuration(query)` of the `GroupBy`/`Period` variant. -/
def calculateSumByDuration (store : List SummationRecord) (query : Query)
    (now : Int) : Except String (List SummationResult) := do
  let dateRange ← getDateRange query now
  let records := findByDateRange store dateRange.1 dateRange.2
  groupAndSum records (query.groupBy.getD .month)

/-- TS `getIncomeSumByDuration(query)` of the `GroupBy`/`Period` variant. -/
def getIncomeSumByDuration (store : List SummationRecord) (query : Query)
    (now : Int) : Except String (List SummationResult) := do
  let dateRange ← getDateRange query now
  let records := findByDateRange store dateRange.1 dateRange.2
  let incomeRecords := records.filter fun r => decide (r.amount > 0)
  groupAndSum incomeRecords (query.groupBy.getD .month)

/-- TS `getExpensesSumByDuration(query)` of the `GroupBy`/`Period` variant. -/
def getExpensesSumByDuration (store : List SummationRecord) (query : Query)
    (now : Int) : Except String (List SummationResult) := do
  let dateRange ← getDateRange query now
  let records := findByDateRange store dateRange.1 dateRange.2
  let expenseRecords := records.filter fun r => decide (r.amount < 0)
  groupAndSum expenseRecords (query.groupBy.getD .month)

end SvcB

/-- The evident bijection between the two variants' grouping enums. -/
def mapG : SvcA.Duration → SvcB.GroupBy
  | .day => .day
  | .week => .week
  | .month => .month
  | .year => .year
  | .invalid s => .invalid s

/-- The evident bijection between the two variants' named-period enums. -/
def mapP : SvcA.SemanticDuration → SvcB.Period
  | .today => .today
  | .yesterday => .yesterday
  | .thisWeek => .thisWeek
  | .lastWeek => .lastWeek
  | .thisMonth => .thisMonth
  | .lastMonth => .lastMonth
  | .thisYear => .thisYear
  | .lastYear => .lastYear
  | .invalid s => .invalid s

/-- A query of the first variant, read as a query of the second. -/
def mapQuery (q : SvcA.Query) : SvcB.Query :=
  { groupBy := q.duration.map mapG
    period := q.semanticDuration.map mapP
    startDate := q.startDate
    endDate := q.endDate }

namespace SvcA

lemma getPeriodKey_eq_ok (t : Int) (d : Duration) (h : d.supported = true) :
    getPeriodKey t d = .ok (keyOf d t) := by
  cases d <;> first
    | rfl
    | simp [Duration.supported] at h

lemma foldlM_congr_ok {α β : Type} (f : β → α → Except String β) (g : β → α → β)
    (hfg : ∀ b a, f b a = .ok (g b a)) :
    ∀ (l : List α) (b : β), l.foldlM f b = .ok (l.foldl g b) := by
  intro l
  induction l with
  | nil => intro b; rfl
  | cons x xs ih =>
    intro b
    simp only [List.foldlM_cons, List.foldl_cons, hfg, ih]
    rfl

lemma buildGroups_eq_ok (recs : List SummationRecord) (d : Duration)
    (h : d.supported = true) :
    buildGroups recs d = .ok (buildGroupsP recs d) := by
  unfold buildGroups buildGroupsP
  apply foldlM_congr_ok
  intro b a
  rw [getPeriodKey_eq_ok _ _ h]
  rfl

lemma groupAndSum_eq_ok (recs : List SummationRecord) (d : Duration)
    (h : d.supported = true) :
    groupAndSum recs d = .ok (summarize (buildGroupsP recs d)) := by
  simp [groupAndSum, buildGroups_eq_ok recs d h, Except.map]

lemma groupsTotal_addRecord (groups : List (String × List SummationRecord))
    (k : String) (r : SummationRecord) :
    groupsTotal (addRecord groups k r) = groupsTotal groups + r.amount := by
  induction groups with
  | nil => simp [addRecord, groupsTotal]
  | cons p rest ih =>
    obtain ⟨k', rs⟩ := p
    by_cases hk : k' = k
    · simp [addRecord, hk, groupsTotal]
      ring
    · simp only [addRecord, if_neg hk, groupsTotal, List.map_cons, List.sum_cons] at ih ⊢
      omega

lemma groupsCount_addRecord (groups : List (String × List SummationRecord))
    (k : String) (r : SummationRecord) :
    groupsCount (addRecord groups k r) = groupsCount groups + 1 := by
  induction groups with
  | nil => simp [addRecord, groupsCount]
  | cons p rest ih =>
    obtain ⟨k', rs⟩ := p
    by_cases hk : k' = k
    · simp [addRecord, hk, groupsCount]
      omega
    · simp only [addRecord, if_neg hk, groupsCount, List.map_cons, List.sum_cons] at ih ⊢
      omega

lemma groupsTotal_foldl (d : Duration) (recs : List SummationRecord) :
    ∀ acc, groupsTotal (recs.foldl (stepOf d) acc)
      = groupsTotal acc + (recs.map SummationRecord.amount).sum := by
  induction recs with
  | nil => intro acc; simp
  | cons r rs ih =>
    intro acc
    simp only [List.foldl_cons, List.map_cons, List.sum_cons, ih, stepOf,
      groupsTotal_addRecord]
    omega

lemma groupsCount_foldl (d : Duration) (recs : List SummationRecord) :
    ∀ acc, groupsCount (recs.foldl (stepOf d) acc) = groupsCount acc + recs.length := by
  induction recs with
  | nil => intro acc; simp
  | cons r rs ih =>
    intro acc
    simp only [List.foldl_cons, List.length_cons, ih, stepOf, groupsCount_addRecord]
    omega

lemma summarize_total_sum (groups : List (String × List SummationRecord)) :
    ((summarize groups).map SummationResult.total).sum = groupsTotal groups := by
  simp only [summarize, groupsTotal, List.map_map, Function.comp_def]

lemma summarize_count_sum (groups : List (String × List SummationRecord)) :
    ((summarize groups).map SummationResult.count).sum = groupsCount groups := by
  simp only [summarize, groupsCount, List.map_map, Function.comp_def]

end SvcA

/-- C4: for every record list and every supported grouping unit, `groupAndSum`
succeeds and the sum of the groups' `total` fields equals the sum of the
amounts of all input records (conservation of total). -/
theorem C4_total_conservation (recs : List SummationRecord) (d : SvcA.Duration)
    (h : d.supported = true) :
    ∃ l, SvcA.groupAndSum recs d = .ok l ∧
      (l.map SummationResult.total).sum = (recs.map SummationRecord.amount).sum := by
  refine ⟨SvcA.summarize (SvcA.buildGroupsP recs d), SvcA.groupAndSum_eq_ok recs d h, ?_⟩
  rw [SvcA.summarize_total_sum]
  simpa [SvcA.buildGroupsP, SvcA.groupsTotal] using
    SvcA.groupsTotal_foldl d recs []

/-- Witness for C4 at a concrete input: three records of amounts
100, -50, 200 over two months, grouped by month. -/
theorem C4_total_conservation_witness :
    SvcA.Duration.month.supported = true ∧
    ∃ l, SvcA.groupAndSum
        [⟨100, 1705276800000⟩, ⟨-50, 1705708800000⟩, ⟨200, 1707523200000⟩]
        SvcA.Duration.month = .ok l ∧
      (l.map SummationResult.total).sum =
        (([⟨100, 1705276800000⟩, ⟨-50, 1705708800000⟩,
           ⟨200, 1707523200000⟩] : List SummationRecord).map
           SummationRecord.amount).sum :=
  ⟨rfl, C4_total_conservation _ _ rfl⟩

/-- C5: grouping an empty record list returns the empty list for every
grouping value, supported or not, and raises no error. -/
theorem C5_empty_input (d : SvcA.Duration) : SvcA.groupAndSum [] d = .ok [] := rfl

lemma foldl_min_mem (xs : List Int) : ∀ a : Int, xs.foldl min a ∈ a :: xs := by
  induction xs with
  | nil => intro a; simp
  | cons x xs ih =>
    intro a
    have h := ih (min a x)
    rw [List.foldl_cons]
    rcases List.mem_cons.mp h with h1 | h1
    · rcases min_choice a x with hc | hc <;> rw [h1, hc] <;> simp
    · simp [h1]

lemma foldl_min_le (xs : List Int) : ∀ a x : Int, x ∈ a :: xs → xs.foldl min a ≤ x := by
  induction xs with
  | nil =>
    intro a x hx
    simp at hx
    simp [hx]
  | cons y ys ih =>
    intro a x hx
    rw [List.foldl_cons]
    rcases List.mem_cons.mp hx with h1 | h1
    · rw [h1]
      exact le_trans (ih (min a y) _ (List.mem_cons_self _ _)) (min_le_left _ _)
    · rcases List.mem_cons.mp h1 with h2 | h2
      · rw [h2]
        exact le_trans (ih (min a y) _ (List.mem_cons_self _ _)) (min_le_right _ _)
      · exact ih (min a y) x (List.mem_cons_of_mem _ h2)

lemma foldl_max_mem (xs : List Int) : ∀ a : Int, xs.foldl max a ∈ a :: xs := by
  induction xs with
  | nil => intro a; simp
  | cons x xs ih =>
    intro a
    have h := ih (max a x)
    rw [List.foldl_cons]
    rcases List.mem_cons.mp h with h1 | h1
    · rcases max_choice a x with hc | hc <;> rw [h1, hc] <;> simp
    · simp [h1]

lemma foldl_max_ge (xs : List Int) : ∀ a x : Int, x ∈ a :: xs → x ≤ xs.foldl max a := by
  induction xs with
  | nil =>
    intro a x hx
    simp at hx
    simp [hx]
  | cons y ys ih =>
    intro a x hx
    rw [List.foldl_cons]
    rcases List.mem_cons.mp hx with h1 | h1
    · rw [h1]
      exact le_trans (le_max_left _ _) (ih (max a y) _ (List.mem_cons_self _ _))
    · rcases List.mem_cons.mp h1 with h2 | h2
      · rw [h2]
        exact le_trans (le_max_right _ _) (ih (max a y) _ (List.mem_cons_self _ _))
      · exact ih (max a y) x (List.mem_cons_of_mem _ h2)

lemma minList_mem {l : List Int} (h : l ≠ []) : minList l ∈ l := by
  cases l with
  | nil => exact absurd rfl h
  | cons x xs => exact foldl_min_mem xs x

lemma minList_le {l : List Int} {x : Int} (hx : x ∈ l) : minList l ≤ x := by
  cases l with
  | nil => simp at hx
  | cons y ys => exact foldl_min_le ys y x hx

lemma maxList_mem {l : List Int} (h : l ≠ []) : maxList l ∈ l := by
  cases l with
  | nil => exact absurd rfl h
  | cons x xs => exact foldl_max_mem xs x

lemma le_maxList {l : List Int} {x : Int} (hx : x ∈ l) : x ≤ maxList l := by
  cases l with
  | nil => simp at hx
  | cons y ys => exact foldl_max_ge ys y x hx

namespace SvcA

lemma keysOf_addRecord (acc : List (String × List SummationRecord)) (k : String)
    (r : SummationRecord) :
    keysOf (addRecord acc k r)
      = if k ∈ keysOf acc then keysOf acc else keysOf acc ++ [k] := by
  induction acc with
  | nil => simp [addRecord, keysOf]
  | cons q rest ih =>
    obtain ⟨k', rs'⟩ := q
    by_cases hk : k' = k
    · subst hk
      simp [addRecord, keysOf]
    · have hk2 : ¬(k = k') := fun h => hk h.symm
      simp only [addRecord, if_neg hk, keysOf, List.map_cons, List.mem_cons] at ih ⊢
      rw [ih]
      by_cases hm : k ∈ List.map Prod.fst rest
      · simp [hm, hk2]
      · simp [hm, hk2]

lemma mem_addRecord {k : String} {r : SummationRecord}
    {p : String × List SummationRecord} :
    ∀ acc : List (String × List SummationRecord),
    (keysOf acc).Nodup → p ∈ addRecord acc k r →
    (p = (k, [r]) ∧ k ∉ keysOf acc) ∨
    (∃ rs, (k, rs) ∈ acc ∧ p = (k, rs ++ [r])) ∨
    (p ∈ acc ∧ p.1 ≠ k) := by
  intro acc
  induction acc with
  | nil =>
    intro _ hp
    simp only [addRecord, List.mem_singleton] at hp
    exact Or.inl ⟨hp, by simp [keysOf]⟩
  | cons q rest ih =>
    obtain ⟨k', rs'⟩ := q
    intro hnd hp
    obtain ⟨hknotin, hndrest⟩ :
        k' ∉ keysOf rest ∧ (keysOf rest).Nodup := by
      simpa [keysOf] using hnd
    by_cases hk : k' = k
    · subst hk
      simp only [addRecord, if_pos, List.mem_cons] at hp
      rcases hp with hp | hp
      · exact Or.inr (Or.inl ⟨rs', List.mem_cons_self _ _, hp⟩)
      · refine Or.inr (Or.inr ⟨List.mem_cons_of_mem _ hp, fun hpk => ?_⟩)
        have hmem : p.1 ∈ keysOf rest := List.mem_map_of_mem Prod.fst hp
        rw [hpk] at hmem
        exact hknotin hmem
    · simp only [addRecord, if_neg hk, List.mem_cons] at hp
      rcases hp with hp | hp
      · refine Or.inr (Or.inr ⟨List.mem_cons.mpr (Or.inl hp), ?_⟩)
        rw [hp]
        exact hk
      · rcases ih hndrest hp with h1 | h2 | h3
        · refine Or.inl ⟨h1.1, ?_⟩
          have hk2 : ¬(k = k') := fun h => hk h.symm
          simp [keysOf, hk2]
          simpa [keysOf] using h1.2
        · obtain ⟨rs, hmem, hpeq⟩ := h2
          exact Or.inr (Or.inl ⟨rs, List.mem_cons_of_mem _ hmem, hpeq⟩)
        · exact Or.inr (Or.inr ⟨List.mem_cons_of_mem _ h3.1, h3.2⟩)

lemma groupInv_nil (d : Duration) : GroupInv d [] [] :=
  ⟨by simp [keysOf], by simp, by simp, by simp⟩

lemma groupInv_step (d : Duration) (processed : List SummationRecord)
    (acc : List (String × List SummationRecord)) (r : SummationRecord)
    (h : GroupInv d processed acc) :
    GroupInv d (processed ++ [r]) (stepOf d acc r) := by
  obtain ⟨hnd, hbkt, hcov, hne⟩ := h
  refine ⟨?_, ?_, ?_, ?_⟩
  · rw [stepOf, keysOf_addRecord]
    by_cases hm : keyOf d r.date ∈ keysOf acc
    · simpa [hm] using hnd
    · simp only [hm, if_false]
      rw [List.nodup_append]
      exact ⟨hnd, List.nodup_singleton _, by simpa [List.disjoint_singleton] using hm⟩
  · intro p hp
    rcases mem_addRecord _ hnd hp with ⟨hpeq, hfresh⟩ | ⟨rs, hmem, hpeq⟩ | ⟨hmem, hne1⟩
    · have hnil : processed.filter
          (fun q => keyOf d q.date == keyOf d r.date) = [] := by
        rw [List.filter_eq_nil_iff]
        intro q hq
        simp only [beq_iff_eq]
        intro hkeq
        exact hfresh (hkeq ▸ hcov q hq)
      rw [hpeq]
      simp [List.filter_append, hnil]
    · have hbs := hbkt (keyOf d r.date, rs) hmem
      rw [hpeq]
      simp only at hbs ⊢
      rw [List.filter_append, ← hbs]
      simp
    · have hbs := hbkt p hmem
      rw [hbs, List.filter_append]
      have hrfalse : (keyOf d r.date == p.1) = false := by
        simp [beq_iff_eq]
        exact fun hh => hne1 hh.symm
      simp [hrfalse]
  · intro q hq
    rw [stepOf, keysOf_addRecord]
    rcases List.mem_append.mp hq with h1 | h1
    · have hmem := hcov q h1
      by_cases hm : keyOf d r.date ∈ keysOf acc <;> simp [hm, hmem]
    · have hq2 : q = r := by simpa using h1
      rw [hq2]
      by_cases hm : keyOf d r.date ∈ keysOf acc <;> simp [hm]
  · intro p hp
    rcases mem_addRecord _ hnd hp with ⟨hpeq, _⟩ | ⟨rs, _, hpeq⟩ | ⟨hmem, _⟩
    · rw [hpeq]
      simp
    · rw [hpeq]
      simp
    · exact hne p hmem

lemma groupInv_foldl (d : Duration) (recs : List SummationRecord) :
    ∀ processed acc, GroupInv d processed acc →
      GroupInv d (processed ++ recs) (recs.foldl (stepOf d) acc) := by
  induction recs with
  | nil =>
    intro processed acc h
    simpa using h
  | cons r rs ih =>
    intro processed acc h
    have h2 := ih (processed ++ [r]) (stepOf d acc r) (groupInv_step d processed acc r h)
    simpa [List.append_assoc] using h2

lemma groupInv_buildGroupsP (d : Duration) (recs : List SummationRecord) :
    GroupInv d recs (buildGroupsP recs d) := by
  simpa using groupInv_foldl d recs [] [] (groupInv_nil d)

/-- Every summary produced on a supported duration describes exactly the
input records bearing its period key. -/
lemma summary_mem_spec (d : Duration) (recs : List SummationRecord)
    (s : SummationResult) (hs : s ∈ summarize (buildGroupsP recs d)) :
    ∃ ms, ms = recs.filter (fun q => keyOf d q.date == s.period) ∧ ms ≠ [] ∧
      s.total = (ms.map SummationRecord.amount).sum ∧
      s.count = ms.length ∧
      s.startDate = minList (ms.map SummationRecord.date) ∧
      s.endDate = maxList (ms.map SummationRecord.date) := by
  obtain ⟨p, hpmem, hps⟩ := List.mem_map.mp hs
  obtain ⟨hnd, hbkt, hcov, hne⟩ := groupInv_buildGroupsP d recs
  have hper : s.period = p.1 := by rw [← hps]
  have htot : s.total = (p.2.map SummationRecord.amount).sum := by rw [← hps]
  have hcnt : s.count = p.2.length := by rw [← hps]
  have hsd : s.startDate = minList (p.2.map SummationRecord.date) := by rw [← hps]
  have hed : s.endDate = maxList (p.2.map SummationRecord.date) := by rw [← hps]
  refine ⟨p.2, ?_, hne p hpmem, htot, hcnt, hsd, hed⟩
  rw [hper]
  exact hbkt p hpmem

/-- A bucket exists for the key of every input record. -/
lemma summary_exists_for (d : Duration) (recs : List SummationRecord)
    (r : SummationRecord) (hr : r ∈ recs) :
    ∃ s ∈ summarize (buildGroupsP recs d), s.period = keyOf d r.date := by
  obtain ⟨hnd, hbkt, hcov, hne⟩ := groupInv_buildGroupsP d recs
  have hkmem := hcov r hr
  obtain ⟨p, hpmem, hpk⟩ := List.mem_map.mp hkmem
  refine ⟨{ period := p.1
            total := (p.2.map SummationRecord.amount).sum
            count := p.2.length
            startDate := minList (p.2.map SummationRecord.date)
            endDate := maxList (p.2.map SummationRecord.date) }, ?_, hpk⟩
  exact List.mem_map.mpr ⟨p, hpmem, rfl⟩

end SvcA

namespace SvcA

lemma groupAndSum_nil (d : Duration) : groupAndSum [] d = .ok [] := rfl

lemma groupAndSum_cons_unsupported (r : SummationRecord) (rs : List SummationRecord)
    (d : Duration) (h : d.supported = false) :
    groupAndSum (r :: rs) d = .error "Unsupported duration" := by
  cases d with
  | invalid raw => rfl
  | day => simp [Duration.supported] at h
  | week => simp [Duration.supported] at h
  | month => simp [Duration.supported] at h
  | year => simp [Duration.supported] at h

lemma int_list_sum_nonneg : ∀ l : List Int, (∀ x ∈ l, 0 ≤ x) → 0 ≤ l.sum := by
  intro l
  induction l with
  | nil => simp
  | cons x xs ih =>
    intro h
    have h1 := h x (by simp)
    have h2 := ih fun y hy => h y (by simp [hy])
    simp only [List.sum_cons]
    omega

lemma int_list_sum_nonpos : ∀ l : List Int, (∀ x ∈ l, x ≤ 0) → l.sum ≤ 0 := by
  intro l
  induction l with
  | nil => simp
  | cons x xs ih =>
    intro h
    have h1 := h x (by simp)
    have h2 := ih fun y hy => h y (by simp [hy])
    simp only [List.sum_cons]
    omega

/-- On a success, every group total is a sum of member amounts drawn from
the input, so a lower/upper bound on input amounts bounds all totals. -/
lemma groupAndSum_total_nonneg (recs : List SummationRecord) (d : Duration)
    (l : List SummationResult) (hl : groupAndSum recs d = .ok l)
    (hpos : ∀ x ∈ recs, 0 < x.amount) : ∀ s ∈ l, 0 ≤ s.total := by
  intro s hs
  by_cases hd : d.supported = true
  · rw [groupAndSum_eq_ok recs d hd] at hl
    injection hl with hl2
    rw [← hl2] at hs
    obtain ⟨ms, hms, _, htot, _, _, _⟩ := summary_mem_spec d recs s hs
    rw [htot]
    apply int_list_sum_nonneg
    intro x hx
    obtain ⟨q, hq, hqx⟩ := List.mem_map.mp hx
    rw [hms] at hq
    have hq2 := List.mem_filter.mp hq
    rw [← hqx]
    exact le_of_lt (hpos q hq2.1)
  · have hd2 : d.supported = false := by simpa using hd
    cases recs with
    | nil =>
      have hnil : groupAndSum ([] : List SummationRecord) d = .ok [] := rfl
      rw [hnil] at hl
      injection hl with hl2
      rw [← hl2] at hs
      simp at hs
    | cons r rs =>
      rw [groupAndSum_cons_unsupported r rs d hd2] at hl
      exact absurd hl (by simp)

lemma groupAndSum_total_nonpos (recs : List SummationRecord) (d : Duration)
    (l : List SummationResult) (hl : groupAndSum recs d = .ok l)
    (hneg : ∀ x ∈ recs, x.amount < 0) : ∀ s ∈ l, s.total ≤ 0 := by
  intro s hs
  by_cases hd : d.supported = true
  · rw [groupAndSum_eq_ok recs d hd] at hl
    injection hl with hl2
    rw [← hl2] at hs
    obtain ⟨ms, hms, _, htot, _, _, _⟩ := summary_mem_spec d recs s hs
    rw [htot]
    apply int_list_sum_nonpos
    intro x hx
    obtain ⟨q, hq, hqx⟩ := List.mem_map.mp hx
    rw [hms] at hq
    have hq2 := List.mem_filter.mp hq
    rw [← hqx]
    exact le_of_lt (hneg q hq2.1)
  · have hd2 : d.supported = false := by simpa using hd
    cases recs with
    | nil =>
      have hnil : groupAndSum ([] : List SummationRecord) d = .ok [] := rfl
      rw [hnil] at hl
      injection hl with hl2
      rw [← hl2] at hs
      simp at hs
    | cons r rs =>
      rw [groupAndSum_cons_unsupported r rs d hd2] at hl
      exact absurd hl (by simp)

end SvcA

/-- C10: every group summary ever returned has at least one member
(`count ≥ 1`), a start date not after its end date, start and end dates
that are dates of actual member transactions (transactions of the input
bearing the summary's period key), and start = end as soon as all members
share a single timestamp. -/
theorem C10_group_summary_invariants (recs : List SummationRecord)
    (d : SvcA.Duration) (l : List SummationResult)
    (hl : SvcA.groupAndSum recs d = .ok l) (s : SummationResult) (hs : s ∈ l) :
    1 ≤ s.count ∧ s.startDate ≤ s.endDate ∧
    (∃ r ∈ recs, SvcA.getPeriodKey r.date d = .ok s.period ∧ r.date = s.startDate) ∧
    (∃ r ∈ recs, SvcA.getPeriodKey r.date d = .ok s.period ∧ r.date = s.endDate) ∧
    (∀ τ : Int,
      (∀ r ∈ recs, SvcA.getPeriodKey r.date d = .ok s.period → r.date = τ) →
      s.startDate = s.endDate) := by
  by_cases hd : d.supported = true
  · rw [SvcA.groupAndSum_eq_ok recs d hd] at hl
    injection hl with hl2
    rw [← hl2] at hs
    obtain ⟨ms, hms, hmsne, htot, hcnt, hsd, hed⟩ := SvcA.summary_mem_spec d recs s hs
    have hdatesne : ms.map SummationRecord.date ≠ [] := by
      simpa [List.map_eq_nil_iff] using hmsne
    have hmem_of : ∀ x ∈ ms, x ∈ recs ∧ SvcA.getPeriodKey x.date d = .ok s.period := by
      intro x hx
      rw [hms] at hx
      have h2 := List.mem_filter.mp hx
      have h3 : SvcA.keyOf d x.date = s.period := by simpa using h2.2
      exact ⟨h2.1, by rw [SvcA.getPeriodKey_eq_ok _ _ hd, h3]⟩
    obtain ⟨r1, hr1, hr1d⟩ := List.mem_map.mp (minList_mem hdatesne)
    obtain ⟨r2, hr2, hr2d⟩ := List.mem_map.mp (maxList_mem hdatesne)
    refine ⟨?_, ?_, ?_, ?_, ?_⟩
    · rw [hcnt]
      exact List.length_pos.mpr hmsne
    · rw [hsd, hed]
      exact minList_le (hr2d ▸ List.mem_map_of_mem SummationRecord.date hr2)
    · exact ⟨r1, (hmem_of r1 hr1).1, (hmem_of r1 hr1).2, by rw [hr1d, hsd]⟩
    · exact ⟨r2, (hmem_of r2 hr2).1, (hmem_of r2 hr2).2, by rw [hr2d, hed]⟩
    · intro τ hτ
      have e1 : r1.date = τ := hτ r1 (hmem_of r1 hr1).1 (hmem_of r1 hr1).2
      have e2 : r2.date = τ := hτ r2 (hmem_of r2 hr2).1 (hmem_of r2 hr2).2
      rw [hsd, hed, ← hr1d, ← hr2d, e1, e2]
  · have hd2 : d.supported = false := by simpa using hd
    cases recs with
    | nil =>
      have hnil : SvcA.groupAndSum ([] : List SummationRecord) d = .ok [] := rfl
      rw [hnil] at hl
      injection hl with hl2
      rw [← hl2] at hs
      simp at hs
    | cons r rs =>
      rw [SvcA.groupAndSum_cons_unsupported r rs d hd2] at hl
      exact absurd hl (by simp)

/-- Witness for C10: a concrete two-record input grouped by month. -/
theorem C10_group_summary_invariants_witness :
    SvcA.groupAndSum [⟨100, 1705276800000⟩, ⟨-50, 1705708800000⟩]
      SvcA.Duration.month =
      .ok [⟨"2024-01", 50, 2, 1705276800000, 1705708800000⟩] ∧
    (1 ≤ (⟨"2024-01", 50, 2, 1705276800000, 1705708800000⟩ : SummationResult).count ∧
     (⟨"2024-01", 50, 2, 1705276800000, 1705708800000⟩ : SummationResult).startDate ≤
       (⟨"2024-01", 50, 2, 1705276800000, 1705708800000⟩ : SummationResult).endDate ∧
     (∃ r ∈ [(⟨100, 1705276800000⟩ : SummationRecord), ⟨-50, 1705708800000⟩],
        SvcA.getPeriodKey r.date SvcA.Duration.month = .ok
          (⟨"2024-01", 50, 2, 1705276800000, 1705708800000⟩ : SummationResult).period ∧
        r.date = (⟨"2024-01", 50, 2, 1705276800000, 1705708800000⟩ : SummationResult).startDate) ∧
     (∃ r ∈ [(⟨100, 1705276800000⟩ : SummationRecord), ⟨-50, 1705708800000⟩],
        SvcA.getPeriodKey r.date SvcA.Duration.month = .ok
          (⟨"2024-01", 50, 2, 1705276800000, 1705708800000⟩ : SummationResult).period ∧
        r.date = (⟨"2024-01", 50, 2, 1705276800000, 1705708800000⟩ : SummationResult).endDate) ∧
     (∀ τ : Int,
       (∀ r ∈ [(⟨100, 1705276800000⟩ : SummationRecord), ⟨-50, 1705708800000⟩],
         SvcA.getPeriodKey r.date SvcA.Duration.month = .ok
           (⟨"2024-01", 50, 2, 1705276800000, 1705708800000⟩ : SummationResult).period →
         r.date = τ) →
       (⟨"2024-01", 50, 2, 1705276800000, 1705708800000⟩ : SummationResult).startDate =
         (⟨"2024-01", 50, 2, 1705276800000, 1705708800000⟩ : SummationResult).endDate)) :=
  ⟨by rfl,
   C10_group_summary_invariants
     [⟨100, 1705276800000⟩, ⟨-50, 1705708800000⟩] SvcA.Duration.month
     [⟨"2024-01", 50, 2, 1705276800000, 1705708800000⟩] (by rfl)
     ⟨"2024-01", 50, 2, 1705276800000, 1705708800000⟩ (by simp)⟩

/-- C7: a zero-amount record is dropped by the income filter (`amount > 0`)
and by the expense filter (`amount < 0`), but in the unfiltered ("all")
aggregation it is counted: the group counts sum to the full record count,
and the record's own group counts it among its members. -/
theorem C7_zero_amount_record (recs : List SummationRecord) (r : SummationRecord)
    (hr : r ∈ recs) (h0 : r.amount = 0) (d : SvcA.Duration)
    (hd : d.supported = true) :
    r ∉ recs.filter (fun x => decide (x.amount > 0)) ∧
    r ∉ recs.filter (fun x => decide (x.amount < 0)) ∧
    ∃ l, SvcA.groupAndSum recs d = .ok l ∧
      (l.map SummationResult.count).sum = recs.length ∧
      ∃ s ∈ l, SvcA.getPeriodKey r.date d = .ok s.period ∧
        s.count = (recs.filter fun x => SvcA.keyOf d x.date == s.period).length ∧
        r ∈ recs.filter fun x => SvcA.keyOf d x.date == s.period := by
  refine ⟨?_, ?_, ?_⟩
  · intro hmem
    have h2 := (List.mem_filter.mp hmem).2
    simp [h0] at h2
  · intro hmem
    have h2 := (List.mem_filter.mp hmem).2
    simp [h0] at h2
  · refine ⟨SvcA.summarize (SvcA.buildGroupsP recs d),
      SvcA.groupAndSum_eq_ok recs d hd, ?_, ?_⟩
    · rw [SvcA.summarize_count_sum]
      have h2 := SvcA.groupsCount_foldl d recs []
      simpa [SvcA.buildGroupsP, SvcA.groupsCount] using h2
    · obtain ⟨s, hsmem, hsk⟩ := SvcA.summary_exists_for d recs r hr
      obtain ⟨ms, hms, _, _, hcnt, _, _⟩ := SvcA.summary_mem_spec d recs s hsmem
      refine ⟨s, hsmem, ?_, ?_, ?_⟩
      · rw [SvcA.getPeriodKey_eq_ok _ _ hd, hsk]
      · rw [hcnt, hms]
      · rw [List.mem_filter]
        exact ⟨hr, by simp [hsk]⟩

/-- Witness for C7: a zero-amount record between two others, month grouping. -/
theorem C7_zero_amount_record_witness :
    (⟨0, 1705276800000⟩ : SummationRecord) ∈
      [(⟨100, 1705276800000⟩ : SummationRecord), ⟨0, 1705276800000⟩] ∧
    (⟨0, 1705276800000⟩ : SummationRecord).amount = 0 ∧
    SvcA.Duration.month.supported = true ∧
    ((⟨0, 1705276800000⟩ : SummationRecord) ∉
        ([(⟨100, 1705276800000⟩ : SummationRecord), ⟨0, 1705276800000⟩].filter
          fun x => decide (x.amount > 0)) ∧
     (⟨0, 1705276800000⟩ : SummationRecord) ∉
        ([(⟨100, 1705276800000⟩ : SummationRecord), ⟨0, 1705276800000⟩].filter
          fun x => decide (x.amount < 0)) ∧
     ∃ l, SvcA.groupAndSum
         [(⟨100, 1705276800000⟩ : SummationRecord), ⟨0, 1705276800000⟩]
         SvcA.Duration.month = .ok l ∧
       (l.map SummationResult.count).sum =
         ([(⟨100, 1705276800000⟩ : SummationRecord), ⟨0, 1705276800000⟩]).length ∧
       ∃ s ∈ l, SvcA.getPeriodKey (1705276800000 : Int) SvcA.Duration.month
           = .ok s.period ∧
         s.count = (([(⟨100, 1705276800000⟩ : SummationRecord),
             ⟨0, 1705276800000⟩]).filter
           fun x => SvcA.keyOf SvcA.Duration.month x.date == s.period).length ∧
         (⟨0, 1705276800000⟩ : SummationRecord) ∈
           ([(⟨100, 1705276800000⟩ : SummationRecord), ⟨0, 1705276800000⟩]).filter
             fun x => SvcA.keyOf SvcA.Duration.month x.date == s.period) :=
  ⟨by simp, rfl, rfl,
   C7_zero_amount_record
     [⟨100, 1705276800000⟩, ⟨0, 1705276800000⟩] ⟨0, 1705276800000⟩
     (by simp) rfl SvcA.Duration.month rfl⟩

/-- C8: every group total of an income query is nonnegative, and every
group total of an expense query is nonpositive, for every store, query and
evaluation instant. -/
theorem C8_income_nonneg_expense_nonpos (store : List SummationRecord)
    (q : SvcA.Query) (now : Int) :
    (∀ l, SvcA.getIncomeSumByDuration store q now = .ok l →
      ∀ s ∈ l, 0 ≤ s.total) ∧
    (∀ l, SvcA.getExpensesSumByDuration store q now = .ok l →
      ∀ s ∈ l, s.total ≤ 0) := by
  constructor
  · intro l hl s hs
    rcases hdr : SvcA.getDateRange q now with e | dr
    · rw [SvcA.getIncomeSumByDuration, hdr] at hl
      exact absurd hl (by simp [Bind.bind, Except.bind])
    · rw [SvcA.getIncomeSumByDuration, hdr] at hl
      simp only [Bind.bind, Except.bind] at hl
      refine SvcA.groupAndSum_total_nonneg _ _ l hl ?_ s hs
      intro x hx
      have h2 := (List.mem_filter.mp hx).2
      simpa using h2
  · intro l hl s hs
    rcases hdr : SvcA.getDateRange q now with e | dr
    · rw [SvcA.getExpensesSumByDuration, hdr] at hl
      exact absurd hl (by simp [Bind.bind, Except.bind])
    · rw [SvcA.getExpensesSumByDuration, hdr] at hl
      simp only [Bind.bind, Except.bind] at hl
      refine SvcA.groupAndSum_total_nonpos _ _ l hl ?_ s hs
      intro x hx
      have h2 := (List.mem_filter.mp hx).2
      simpa using h2

/-- Witness for C8: a store with one income and one expense record, an
explicit full range, default month grouping. -/
theorem C8_income_nonneg_expense_nonpos_witness :
    SvcA.getIncomeSumByDuration
        [⟨100, 1705276800000⟩, ⟨-50, 1705708800000⟩]
        { startDate := some 0, endDate := some 1893456000000 } 1705708800000
      = .ok [⟨"2024-01", 100, 1, 1705276800000, 1705276800000⟩] ∧
    0 ≤ (⟨"2024-01", 100, 1, 1705276800000, 1705276800000⟩ : SummationResult).total ∧
    SvcA.getExpensesSumByDuration
        [⟨100, 1705276800000⟩, ⟨-50, 1705708800000⟩]
        { startDate := some 0, endDate := some 1893456000000 } 1705708800000
      = .ok [⟨"2024-01", -50, 1, 1705708800000, 1705708800000⟩] ∧
    (⟨"2024-01", -50, 1, 1705708800000, 1705708800000⟩ : SummationResult).total ≤ 0 :=
  ⟨by rfl,
   (C8_income_nonneg_expense_nonpos
       [⟨100, 1705276800000⟩, ⟨-50, 1705708800000⟩]
       { startDate := some 0, endDate := some 1893456000000 } 1705708800000).1
     [⟨"2024-01", 100, 1, 1705276800000, 1705276800000⟩] (by rfl)
     ⟨"2024-01", 100, 1, 1705276800000, 1705276800000⟩ (by simp),
   by rfl,
   (C8_income_nonneg_expense_nonpos
       [⟨100, 1705276800000⟩, ⟨-50, 1705708800000⟩]
       { startDate := some 0, endDate := some 1893456000000 } 1705708800000).2
     [⟨"2024-01", -50, 1, 1705708800000, 1705708800000⟩] (by rfl)
     ⟨"2024-01", -50, 1, 1705708800000, 1705708800000⟩ (by simp)⟩

/-- C1 counterexample: Dec 30, 2023 (epoch ms 1703894400000, a Saturday)
does NOT get the week key "2024-W01": it is in ISO week 52 of 2023 and the
code keys it "2023-W52", so week grouping cannot merge it with
Jan 1, 2024 under "2024-W01" as the claim asserts. -/
theorem C1_counterexample :
    SvcA.getPeriodKey 1703894400000 SvcA.Duration.week ≠ Except.ok "2024-W01" := by
  intro h
  rw [show SvcA.getPeriodKey 1703894400000 SvcA.Duration.week
        = Except.ok "2023-W52" from by rfl] at h
  injection h with h2
  exact absurd h2 (by decide)

/-- C1 (amended): the week key combines the date's CALENDAR year with the
ISO-8601 week number; Dec 30, 2023 keys as "2023-W52" and Jan 1, 2024 as
"2024-W01", and week grouping therefore yields two distinct groups for
these dates, not one. -/
theorem C1_week_key_amended :
    SvcA.getPeriodKey 1703894400000 SvcA.Duration.week = .ok "2023-W52" ∧
    SvcA.getPeriodKey 1704067200000 SvcA.Duration.week = .ok "2024-W01" ∧
    SvcA.groupAndSum [⟨100, 1703894400000⟩, ⟨200, 1704067200000⟩]
        SvcA.Duration.week
      = .ok [⟨"2023-W52", 100, 1, 1703894400000, 1703894400000⟩,
             ⟨"2024-W01", 200, 1, 1704067200000, 1704067200000⟩] :=
  ⟨by rfl, by rfl, by rfl⟩

/-- C2 (code bug): with "now" at Sunday 2025-06-15 12:00 (1749988800000),
LAST_WEEK resolves to Monday 2025-06-09 00:00 (1749427200000) through
Sunday 2025-06-15 23:59:59.999 (1750031999999) — the Monday–Sunday week
CONTAINING today (today lies inside the window and its start is only 6
days before today), not the full week immediately preceding the current
one as the spec and the repository's own README state. -/
theorem C2_lastweek_sunday_bug :
    SvcA.getSemanticDateRange SvcA.SemanticDuration.lastWeek 1749988800000
      = .ok (1749427200000, 1750031999999) ∧
    getWeekday 1749988800000 = 0 ∧
    (1749427200000 : Int) ≤ dateOnly 1749988800000 ∧
    dateOnly 1749988800000 ≤ (1750031999999 : Int) ∧
    dateOnly 1749988800000 - 1749427200000 = 6 * dayMs :=
  ⟨by rfl, by rfl, by decide, by decide, by rfl⟩

/-- C6 counterexample: same store, same query (named period "today"),
evaluated at two different instants (2025-06-15 12:00 and 2025-06-16
12:00): the first run returns one group, the second returns none — the
output depends on the ambient clock, so two runs need not coincide. -/
theorem C6_counterexample :
    SvcA.calculateSumByDuration [⟨100, 1749988800000⟩]
        { semanticDuration := some SvcA.SemanticDuration.today } 1749988800000
      = .ok [⟨"2025-06", 100, 1, 1749988800000, 1749988800000⟩] ∧
    SvcA.calculateSumByDuration [⟨100, 1749988800000⟩]
        { semanticDuration := some SvcA.SemanticDuration.today } 1750075200000
      = .ok [] ∧
    SvcA.calculateSumByDuration [⟨100, 1749988800000⟩]
        { semanticDuration := some SvcA.SemanticDuration.today } 1749988800000
      ≠ SvcA.calculateSumByDuration [⟨100, 1749988800000⟩]
        { semanticDuration := some SvcA.SemanticDuration.today } 1750075200000 := by
  refine ⟨by rfl, by rfl, ?_⟩
  intro h
  rw [show SvcA.calculateSumByDuration [⟨100, 1749988800000⟩]
        { semanticDuration := some SvcA.SemanticDuration.today } 1749988800000
      = .ok [⟨"2025-06", 100, 1, 1749988800000, 1749988800000⟩] from by rfl,
    show SvcA.calculateSumByDuration [⟨100, 1749988800000⟩]
        { semanticDuration := some SvcA.SemanticDuration.today } 1750075200000
      = .ok [] from by rfl] at h
  injection h with h2
  exact absurd h2 (by simp)

/-- C6 (amended): the engine is a pure function of store, query and the
evaluation instant; in particular, when the query carries no named period
and an explicit end date, its output does not depend on the evaluation
instant at all, so repeated runs agree. -/
theorem C6_determinism_amended (store : List SummationRecord) (q : SvcA.Query)
    (now1 now2 : Int) (e : Int) (hsem : q.semanticDuration = none)
    (hend : q.endDate = some e) :
    SvcA.calculateSumByDuration store q now1
      = SvcA.calculateSumByDuration store q now2 ∧
    SvcA.getIncomeSumByDuration store q now1
      = SvcA.getIncomeSumByDuration store q now2 ∧
    SvcA.getExpensesSumByDuration store q now1
      = SvcA.getExpensesSumByDuration store q now2 := by
  have hdr : ∀ n : Int, SvcA.getDateRange q n = .ok (q.startDate.getD 0, e) := by
    intro n
    simp [SvcA.getDateRange, hsem, hend]
  refine ⟨?_, ?_, ?_⟩ <;>
    simp only [SvcA.calculateSumByDuration, SvcA.getIncomeSumByDuration,
      SvcA.getExpensesSumByDuration, hdr]

/-- Witness for C6 (amended): explicit range, two distinct instants. -/
theorem C6_determinism_amended_witness :
    ({ startDate := some 0, endDate := some 1893456000000 } : SvcA.Query).semanticDuration
      = none ∧
    ({ startDate := some 0, endDate := some 1893456000000 } : SvcA.Query).endDate
      = some 1893456000000 ∧
    (SvcA.calculateSumByDuration [⟨100, 1705276800000⟩]
        { startDate := some 0, endDate := some 1893456000000 } 1749988800000
      = SvcA.calculateSumByDuration [⟨100, 1705276800000⟩]
        { startDate := some 0, endDate := some 1893456000000 } 1750075200000 ∧
     SvcA.getIncomeSumByDuration [⟨100, 1705276800000⟩]
        { startDate := some 0, endDate := some 1893456000000 } 1749988800000
      = SvcA.getIncomeSumByDuration [⟨100, 1705276800000⟩]
        { startDate := some 0, endDate := some 1893456000000 } 1750075200000 ∧
     SvcA.getExpensesSumByDuration [⟨100, 1705276800000⟩]
        { startDate := some 0, endDate := some 1893456000000 } 1749988800000
      = SvcA.getExpensesSumByDuration [⟨100, 1705276800000⟩]
        { startDate := some 0, endDate := some 1893456000000 } 1750075200000) :=
  ⟨rfl, rfl,
   C6_determinism_amended [⟨100, 1705276800000⟩]
     { startDate := some 0, endDate := some 1893456000000 }
     1749988800000 1750075200000 1893456000000 rfl rfl⟩

namespace SvcB

lemma groupAndSumB_cons_unsupported (r : SummationRecord) (rs : List SummationRecord)
    (g : GroupBy) (h : g.supported = false) :
    groupAndSum (r :: rs) g = .error "Unsupported groupBy value" := by
  cases g with
  | invalid raw => rfl
  | day => simp [GroupBy.supported] at h
  | week => simp [GroupBy.supported] at h
  | month => simp [GroupBy.supported] at h
  | year => simp [GroupBy.supported] at h

end SvcB

/-- C3 counterexample: a query with the unsupported grouping value
"INVALID" over a store/range matching no records does NOT fail — the
engine returns the empty result list. -/
theorem C3_counterexample :
    SvcB.calculateSumByDuration []
      { groupBy := some (SvcB.GroupBy.invalid "INVALID") } 0 = .ok [] := by rfl

/-- C3 (amended): with an unsupported grouping value, the engine throws
"Unsupported groupBy value" whenever the resolved date window matches at
least one record; with no matching records it instead returns `[]`. -/
theorem C3_unsupported_groupby (store : List SummationRecord) (q : SvcB.Query)
    (now : Int) (raw : String) (hq : q.groupBy = some (SvcB.GroupBy.invalid raw))
    (dr : Int × Int) (hdr : SvcB.getDateRange q now = .ok dr)
    (r : SummationRecord) (rs : List SummationRecord)
    (hne : findByDateRange store dr.1 dr.2 = r :: rs) :
    SvcB.calculateSumByDuration store q now = .error "Unsupported groupBy value" := by
  simp only [SvcB.calculateSumByDuration, Bind.bind, Except.bind, hdr, hq, hne,
    Option.getD]
  exact SvcB.groupAndSumB_cons_unsupported r rs (SvcB.GroupBy.invalid raw) rfl

/-- Witness for C3 (amended): one matching record, groupBy "INVALID". -/
theorem C3_unsupported_groupby_witness :
    ({ groupBy := some (SvcB.GroupBy.invalid "INVALID"), startDate := some 0,
        endDate := some 1893456000000 } : SvcB.Query).groupBy
      = some (SvcB.GroupBy.invalid "INVALID") ∧
    SvcB.getDateRange
        { groupBy := some (SvcB.GroupBy.invalid "INVALID"), startDate := some 0,
          endDate := some 1893456000000 } 0 = .ok (0, 1893456000000) ∧
    findByDateRange [⟨100, 1705276800000⟩] 0 1893456000000
      = [⟨100, 1705276800000⟩] ∧
    SvcB.calculateSumByDuration [⟨100, 1705276800000⟩]
        { groupBy := some (SvcB.GroupBy.invalid "INVALID"), startDate := some 0,
          endDate := some 1893456000000 } 0
      = .error "Unsupported groupBy value" :=
  ⟨rfl, by rfl, by rfl,
   C3_unsupported_groupby [⟨100, 1705276800000⟩]
     { groupBy := some (SvcB.GroupBy.invalid "INVALID"), startDate := some 0,
       endDate := some 1893456000000 } 0 "INVALID" rfl
     (0, 1893456000000) (by rfl) ⟨100, 1705276800000⟩ [] (by rfl)⟩

lemma okPart_foldlM {α β : Type} (f1 f2 : β → α → Except String β)
    (h : ∀ b a, okPart (f1 b a) = okPart (f2 b a)) :
    ∀ (l : List α) (b : β), okPart (l.foldlM f1 b) = okPart (l.foldlM f2 b) := by
  intro l
  induction l with
  | nil => intro b; rfl
  | cons x xs ih =>
    intro b
    have hx := h b x
    rcases hf1 : f1 b x with e1 | b1 <;> rcases hf2 : f2 b x with e2 | b2 <;>
      rw [hf1, hf2] at hx <;> simp only [okPart] at hx
    · simp [List.foldlM_cons, hf1, hf2, Bind.bind, Except.bind, okPart]
    · exact absurd hx (by simp)
    · exact absurd hx (by simp)
    · have hb : b1 = b2 := by simpa using hx
      rw [List.foldlM_cons, List.foldlM_cons, hf1, hf2, hb]
      simp only [Bind.bind, Except.bind]
      exact ih b2

lemma okPart_map {α β : Type} (f : α → β) (x y : Except String α)
    (h : okPart x = okPart y) : okPart (x.map f) = okPart (y.map f) := by
  rcases x with e1 | a1 <;> rcases y with e2 | a2 <;>
    simp only [okPart, Except.map] at h ⊢
  · exact absurd h (by simp)
  · exact absurd h (by simp)
  · have : a1 = a2 := by simpa using h
    rw [this]

lemma addRecord_eq (groups : List (String × List SummationRecord)) (k : String)
    (r : SummationRecord) : SvcB.addRecord groups k r = SvcA.addRecord groups k r := by
  induction groups with
  | nil => rfl
  | cons p rest ih =>
    obtain ⟨k', rs⟩ := p
    by_cases h : k' = k <;> simp [SvcA.addRecord, SvcB.addRecord, h, ih]

lemma okPart_getPeriodKey (t : Int) (d : SvcA.Duration) :
    okPart (SvcB.getPeriodKey t (mapG d)) = okPart (SvcA.getPeriodKey t d) := by
  cases d <;> rfl

lemma okPart_buildGroups (recs : List SummationRecord) (d : SvcA.Duration) :
    okPart (SvcB.buildGroups recs (mapG d)) = okPart (SvcA.buildGroups recs d) := by
  unfold SvcA.buildGroups SvcB.buildGroups
  apply okPart_foldlM
  intro b a
  have hk := okPart_getPeriodKey a.date d
  rcases h1 : SvcB.getPeriodKey a.date (mapG d) with e1 | k1 <;>
    rcases h2 : SvcA.getPeriodKey a.date d with e2 | k2 <;>
    rw [h1, h2] at hk <;> simp only [okPart, Except.map] at hk ⊢
  · exact absurd hk (by simp)
  · exact absurd hk (by simp)
  · have hkk : k1 = k2 := by simpa using hk
    rw [hkk, addRecord_eq]

lemma okPart_groupAndSum (recs : List SummationRecord) (d : SvcA.Duration) :
    okPart (SvcB.groupAndSum recs (mapG d)) = okPart (SvcA.groupAndSum recs d) := by
  have h := okPart_buildGroups recs d
  show okPart (Except.map SvcA.summarize (SvcB.buildGroups recs (mapG d)))
    = okPart (Except.map SvcA.summarize (SvcA.buildGroups recs d))
  exact okPart_map SvcA.summarize _ _ h

lemma okPart_getDateRange (q : SvcA.Query) (now : Int) :
    okPart (SvcB.getDateRange (mapQuery q) now) = okPart (SvcA.getDateRange q now) := by
  rcases q with ⟨dur, sem, sd, ed⟩
  cases sem with
  | none => rfl
  | some s => cases s <;> rfl

lemma mapQuery_groupBy_getD (q : SvcA.Query) :
    (mapQuery q).groupBy.getD .month = mapG (q.duration.getD .month) := by
  rcases q with ⟨dur, _, _, _⟩
  cases dur <;> rfl

/-- C9: the two `SummationService` implementations are behaviourally
equivalent: with the same store contents, corresponding query fields and
the same evaluation instant, `calculateSumByDuration`, the income query
and the expense query return the identical result list (and fail exactly
together). -/
theorem C9_variant_equivalence (store : List SummationRecord) (q : SvcA.Query)
    (now : Int) :
    okPart (SvcB.calculateSumByDuration store (mapQuery q) now)
      = okPart (SvcA.calculateSumByDuration store q now) ∧
    okPart (SvcB.getIncomeSumByDuration store (mapQuery q) now)
      = okPart (SvcA.getIncomeSumByDuration store q now) ∧
    okPart (SvcB.getExpensesSumByDuration store (mapQuery q) now)
      = okPart (SvcA.getExpensesSumByDuration store q now) := by
  have hdr := okPart_getDateRange q now
  refine ⟨?_, ?_, ?_⟩ <;>
  · rcases hA : SvcA.getDateRange q now with e | dr <;>
      rcases hB : SvcB.getDateRange (mapQuery q) now with e2 | dr2 <;>
      rw [hA, hB] at hdr <;> simp only [okPart] at hdr
    · simp [SvcA.calculateSumByDuration, SvcB.calculateSumByDuration,
        SvcA.getIncomeSumByDuration, SvcB.getIncomeSumByDuration,
        SvcA.getExpensesSumByDuration, SvcB.getExpensesSumByDuration,
        Bind.bind, Except.bind, hA, hB, okPart]
    · exact absurd hdr (by simp)
    · exact absurd hdr (by simp)
    · have hdd : dr2 = dr := by simpa using hdr
      subst hdd
      simp only [SvcA.calculateSumByDuration, SvcB.calculateSumByDuration,
        SvcA.getIncomeSumByDuration, SvcB.getIncomeSumByDuration,
        SvcA.getExpensesSumByDuration, SvcB.getExpensesSumByDuration,
        Bind.bind, Except.bind, hA, hB, mapQuery_groupBy_getD]
      exact okPart_groupAndSum _ _
